import Mathlib

/-!
Shallow embedding of the magnum-sceneconverter utility
(`src/Magnum/SceneTools/sceneconverter.cpp`): the mesh data model, the
attribute filter, the converter chain loop and the top-level control flow
of `main`, together with theorems checking the specification's claims.

External collaborators (plugin backends, the importer, the MeshTools
helpers) are modelled at their interface boundary: a backend is a record
of capability flags plus its two conversion functions, the importer is a
record of accessors, and helpers whose code is not part of the embedded
translation unit are abstract fields of a `World` record or, where a claim
is decided by them, definitions modelled from the specification's words
(marked as such in their doc comments).
-/

namespace SceneConv

/-- Observable events of one run of the converter chain loop
(`sceneconverter.cpp` lines 493-541): a hop iteration starting with a
given index and plugin name, a converter-options value being applied, an
in-memory `convert` invocation, and a `convertToFile` invocation. -/
inductive Event where
  | hopStarted (i : Nat) (name : String)
  | configured (i : Nat) (value : String)
  | converted (i : Nat) (name : String)
  | wroteFile (i : Nat) (name : String)
deriving DecidableEq, Repr

/-- One attribute descriptor of a mesh (`Trade::MeshAttributeData`):
semantic name, format, data offset and stride, all kept abstract as
numeric identifiers. -/
structure MeshAttributeData where
  name : Nat
  format : Nat
  offset : Nat
  stride : Nat
deriving DecidableEq, Repr, Inhabited

/-- In-memory mesh (`Trade::MeshData`): primitive topology (abstract
identifier), optional index buffer, ordered attribute descriptor list,
raw vertex data blob and vertex count. -/
structure MeshData where
  primitive : Nat
  indices : Option (List Nat)
  attributes : List MeshAttributeData
  vertexData : List Nat
  vertexCount : Nat
deriving DecidableEq, Repr, Inhabited

/-- A scene converter backend (`Trade::AbstractSceneConverter`) at its
interface boundary: the two capability flags from
`Trade::SceneConverterFeature` and the two conversion operations. -/
structure SceneConverterPlugin where
  convertMesh : Bool
  convertMeshToFile : Bool
  convert : MeshData → Option MeshData
  convertToFile : MeshData → String → Bool

/-- Outcome of the converter chain loop. `savedFile` is the `break` after
a successful `convertToFile`; the numbered failures are the `return`
statements with exit codes 2, 5, 6 and 7; `assertFailed` is the
`CORRADE_INTERNAL_ASSERT(i < converterCount)` aborting; `fellThrough`
marks the (unreachable) normal loop exit. -/
inductive ChainResult where
  | savedFile
  | pluginLoadFailed
  | saveFailed
  | capabilityMismatch (name : String)
  | convertFailed (name : String)
  | assertFailed
  | fellThrough
deriving DecidableEq, Repr

/-- Exit code reported for a chain outcome; `none` for the assertion
abort, which terminates the process without the loop's own error paths. -/
def ChainResult.exitCode : ChainResult → Option Nat
  | ChainResult.savedFile => some 0
  | ChainResult.pluginLoadFailed => some 2
  | ChainResult.saveFailed => some 5
  | ChainResult.capabilityMismatch _ => some 6
  | ChainResult.convertFailed _ => some 7
  | ChainResult.assertFailed => none
  | ChainResult.fellThrough => some 0

/-- Whether a chain outcome is the reported capability-mismatch error
path (exit code 6, `Error{} << name << "doesn't support mesh conversion"`). -/
def ChainResult.isCapabilityMismatch : ChainResult → Bool
  | ChainResult.capabilityMismatch _ => true
  | _ => false

/-- The events one hop iteration emits before branching: the iteration
starting with its index and plugin name and, when `i < opts.length`, the
`i`-th converter-options value being applied (line 505). -/
def hopPrelude (opts : List String) (i : Nat) (name : String) : List Event :=
  Event.hopStarted i name ::
    (if i < opts.length then [Event.configured i (opts.getD i "")] else [])

/-- The converter chain loop body (`sceneconverter.cpp` lines 493-541),
translated hop by hop. `converterCount` is `args.arrayValueCount("converter")`,
`hops` the still unprocessed part of the hop name list
`converters ++ [AnySceneConverter]`, `i` the current loop index. Each
iteration: instantiate the plugin (exit 2 on failure), apply the `i`-th
converter-options value when `i < opts.length` (line 505), then test
`i + 1 >= converterCount && features & ConvertMeshToFile` (line 510): if
so invoke `convertToFile` and stop (break on success, exit 5 on failure);
otherwise assert `i < converterCount` (line 526), require the
`ConvertMesh` feature (exit 6 otherwise, line 530) and invoke `convert`
(exit 7 on failure), feeding its output to the next hop. -/
def runHops (reg : String → Option SceneConverterPlugin) (converterCount : Nat)
    (opts : List String) (output : String) :
    List String → Nat → MeshData → List Event × ChainResult
  | [], _, _ => ([], ChainResult.fellThrough)
  | name :: rest, i, mesh =>
    match reg name with
    | none => ([Event.hopStarted i name], ChainResult.pluginLoadFailed)
    | some conv =>
      let pre := hopPrelude opts i name
      if i + 1 ≥ converterCount ∧ conv.convertMeshToFile = true then
        (pre ++ [Event.wroteFile i name],
          if conv.convertToFile mesh output then ChainResult.savedFile
          else ChainResult.saveFailed)
      else if i < converterCount then
        if conv.convertMesh = true then
          match conv.convert mesh with
          | some next =>
            let tail := runHops reg converterCount opts output rest (i + 1) next
            (pre ++ [Event.converted i name] ++ tail.1, tail.2)
          | none => (pre ++ [Event.converted i name], ChainResult.convertFailed name)
        else (pre, ChainResult.capabilityMismatch name)
      else (pre, ChainResult.assertFailed)

/-- The full converter chain: the `N` requested converter names followed
by the implicit trailing `AnySceneConverter`, starting at hop index 0
(`for(std::size_t i = 0; i <= converterCount; ++i)` with
`converterName = i == converterCount ? "AnySceneConverter" : ...`). -/
def runChain (reg : String → Option SceneConverterPlugin)
    (converters opts : List String) (output : String) (mesh : MeshData) :
    List Event × ChainResult :=
  runHops reg converters.length opts output (converters ++ ["AnySceneConverter"]) 0 mesh

/-- Whether an event is a `convertToFile` invocation. -/
def Event.isFileWrite : Event → Bool
  | Event.wroteFile _ _ => true
  | _ => false

/-- Whether an event is an in-memory `convert` invocation. -/
def Event.isConvertCall : Event → Bool
  | Event.converted _ _ => true
  | _ => false

/-- Holds when every `convertToFile` invocation in the trace is the very
last event: nothing at all runs after a file write. -/
def noEventAfterWrite : List Event → Bool
  | [] => true
  | e :: rest => if e.isFileWrite then rest.isEmpty else noEventAfterWrite rest

/-- A trivial concrete mesh used by concrete witnesses. -/
def mesh0 : MeshData :=
  { primitive := 0, indices := none, attributes := [], vertexData := [], vertexCount := 0 }

/-- A backend that only supports writing to a file, always successfully. -/
def fileOnlyPlugin : SceneConverterPlugin :=
  { convertMesh := false, convertMeshToFile := true,
    convert := fun _ => none, convertToFile := fun _ _ => true }

/-- A backend that only supports in-memory conversion, always successfully. -/
def memOnlyPlugin : SceneConverterPlugin :=
  { convertMesh := true, convertMeshToFile := false,
    convert := fun m => some m, convertToFile := fun _ _ => false }

/-- A backend with no capabilities at all. -/
def noCapPlugin : SceneConverterPlugin :=
  { convertMesh := false, convertMeshToFile := false,
    convert := fun _ => none, convertToFile := fun _ _ => false }

/-- Opaque handle for imported scene data (`Trade::SceneData`); the
embedding never looks inside it, it is only passed to the abstract
hierarchy flattener. -/
structure SceneData where
  id : Nat
deriving DecidableEq, Repr, Inhabited

/-- The importer (`Trade::AbstractImporter`) at its interface boundary:
mesh count, per-index mesh access as used by the concatenation branch,
`(mesh, level)` access as used by the single-mesh branch, the default
scene (`none` models the `-1` sentinel) and per-index scene access. -/
structure Importer where
  meshCount : Nat
  mesh : Nat → Option MeshData
  meshLevel : Nat → Nat → Option MeshData
  defaultScene : Option Nat
  scene : Nat → Option SceneData

/-- The eleven `--info*` boolean options of the argument list. -/
structure InfoOptions where
  animations : Bool := false
  images : Bool := false
  lights : Bool := false
  cameras : Bool := false
  materials : Bool := false
  meshes : Bool := false
  objects : Bool := false
  scenes : Bool := false
  skins : Bool := false
  textures : Bool := false
  info : Bool := false
deriving DecidableEq, Repr, Inhabited

/-- The helper `isInfoRequested` (`sceneconverter.cpp` lines 218-230):
whether any of the `--info*` options is set. -/
def isInfoRequested (o : InfoOptions) : Bool :=
  o.animations || o.images || o.lights || o.cameras || o.materials ||
  o.meshes || o.objects || o.scenes || o.skins || o.textures || o.info

/-- The parsed command-line arguments relevant to the pipeline.
`onlyAttributes = none` models an empty `--only-attributes` value;
`some l` carries the syntactically parsed number sequence whose range
check happens against the mesh's attribute count. -/
structure Args where
  output : String := ""
  info : InfoOptions := {}
  concatenateMeshes : Bool := false
  onlyAttributes : Option (List Nat) := none
  removeDuplicates : Bool := false
  removeDuplicatesFuzzy : Bool := false
  meshIndex : Nat := 0
  level : Nat := 0
  converters : List String := []
  converterOptions : List String := []

/-- The external world `main` runs against: whether the importer plugin
instantiates and the input file opens, the importer itself, the outcome
reported by the info printer, the converter plugin registry, and the
MeshTools / SceneTools helpers whose code lives outside the embedded
translation unit, kept abstract. `flatten3D` stands for
`SceneTools::flattenMeshHierarchy3D` (returning mesh index and an opaque
transform per instance) and `transform3D` for `MeshTools::transform3D`. -/
structure World where
  importerLoads : Bool
  openSucceeds : Bool
  importer : Importer
  printInfoError : Bool
  registry : String → Option SceneConverterPlugin
  flatten3D : SceneData → List (Nat × Nat)
  transform3D : MeshData → Nat → MeshData
  concatenate : List MeshData → MeshData
  removeDuplicates : MeshData → MeshData
  removeDuplicatesFuzzy : MeshData → MeshData

/-- Outcome of `main`: `success` is falling off the end with exit code 0,
the other constructors are the early `return` statements, with
`chainFailed` wrapping a converter chain failure. -/
inductive MainResult where
  | success
  | importerLoadFailed
  | cannotOpenFile
  | doneInfo (error : Bool)
  | noMeshes
  | cannotImportMesh (i : Nat)
  | cannotImportScene
  | cannotImportSingleMesh
  | badAttributeSelection
  | chainFailed (r : ChainResult)
deriving DecidableEq, Repr

/-- Exit code of a `main` outcome (`none` for the assertion abort). -/
def MainResult.exitCode : MainResult → Option Nat
  | MainResult.success => some 0
  | MainResult.importerLoadFailed => some 1
  | MainResult.cannotOpenFile => some 3
  | MainResult.doneInfo e => some (if e then 1 else 0)
  | MainResult.noMeshes => some 1
  | MainResult.cannotImportMesh _ => some 1
  | MainResult.cannotImportScene => some 1
  | MainResult.cannotImportSingleMesh => some 4
  | MainResult.badAttributeSelection => some 2
  | MainResult.chainFailed r => r.exitCode

/-- A successful chain (`break` after the file write, or the unreachable
normal loop exit) lets `main` fall through to exit code 0; every chain
failure is the corresponding early `return`. -/
def mainResultOfChain : ChainResult → MainResult
  | ChainResult.savedFile => MainResult.success
  | ChainResult.fellThrough => MainResult.success
  | r => MainResult.chainFailed r

/-- Observables of one run of `main` beyond its result: the warning about
an ignored output file, whether the info printer ran, whether the scene
flattening branch ran and how many transforms it applied, the mesh list
handed to `MeshTools::concatenate` (`none` when concatenation never ran),
and the event trace of the converter chain. -/
structure MainLog where
  warnedIgnoredOutput : Bool := false
  printedInfo : Bool := false
  sceneFlattenUsed : Bool := false
  transformsApplied : Nat := 0
  concatInput : Option (List MeshData) := none
  chainEvents : List Event := []
deriving DecidableEq, Repr, Inhabited

/-- Import meshes `first, first+1, ..., first+count-1`, stopping at the
first failure with the failing index (the loop at lines 399-403). -/
def importMeshesFrom (imp : Importer) : Nat → Nat → Except Nat (List MeshData)
  | _, 0 => Except.ok []
  | first, count + 1 =>
    match imp.mesh first with
    | none => Except.error first
    | some m =>
      match importMeshesFrom imp (first + 1) count with
      | Except.error j => Except.error j
      | Except.ok rest => Except.ok (m :: rest)

/-- The `--concatenate-meshes` mesh acquisition (lines 398-431): import
every mesh; when a default scene exists, import it (exit 1 on failure)
and replace the mesh list by one transformed mesh per instance returned
by the hierarchy flattener; when there is none, keep all meshes as they
are. Returns the list fed to `MeshTools::concatenate`, whether the
flattening branch ran, and the number of transforms applied. -/
def concatStage (w : World) : Except MainResult (List MeshData × Bool × Nat) :=
  match importMeshesFrom w.importer 0 w.importer.meshCount with
  | Except.error i => Except.error (MainResult.cannotImportMesh i)
  | Except.ok meshes =>
    match w.importer.defaultScene with
    | some s =>
      match w.importer.scene s with
      | none => Except.error MainResult.cannotImportScene
      | some sc =>
        let pairs := w.flatten3D sc
        Except.ok (pairs.map (fun p => w.transform3D (meshes.getD p.1 default) p.2),
          true, pairs.length)
    | none => Except.ok (meshes, false, 0)

/-- Mesh acquisition: the concatenation branch or the single
`importer->mesh(args.mesh, args.level)` import (exit 4 on failure).
Returns the working mesh, the flattening flag, the transform count, and
the concatenation input list when concatenation ran. -/
def meshStage (w : World) (args : Args) :
    Except MainResult (MeshData × Bool × Nat × Option (List MeshData)) :=
  if args.concatenateMeshes then
    match concatStage w with
    | Except.error r => Except.error r
    | Except.ok (meshes, fl, tc) =>
      Except.ok (w.concatenate meshes, fl, tc, some meshes)
  else
    match w.importer.meshLevel args.meshIndex args.level with
    | none => Except.error MainResult.cannotImportSingleMesh
    | some m => Except.ok (m, false, 0, none)

/-- Modelled from the spec: `Corrade::Utility::String::parseNumberSequence`
as invoked at line 447 with bounds `0` and `mesh->attributeCount()`, whose
code is not part of this repository's sources. Per the specification's
AttributeFilter contract, duplicates and any order are allowed and each
index must be `< attributeCount`, else the selection fails
(`AttributeIndexOutOfRange`). -/
def parseNumberSequence (requested : List Nat) (max : Nat) : Option (List Nat) :=
  if requested.all (fun i => i < max) then some requested else none

/-- The attribute filter construction (lines 452-462): a new mesh with
the selected attribute descriptors in the order given, the same
primitive, the released (unchanged) index and vertex data and the same
vertex count. -/
def filterOnlyAttributes (mesh : MeshData) (only : List Nat) : MeshData :=
  { primitive := mesh.primitive
    indices := mesh.indices
    attributes := only.map (fun i => mesh.attributes.getD i default)
    vertexData := mesh.vertexData
    vertexCount := mesh.vertexCount }

/-- The `--only-attributes` stage (lines 446-463): parse the selection
against the mesh's attribute count (exit 2 on failure) and filter. -/
def attributeStage (args : Args) (mesh : MeshData) : Except MainResult MeshData :=
  match args.onlyAttributes with
  | none => Except.ok mesh
  | some req =>
    match parseNumberSequence req mesh.attributes.length with
    | none => Except.error MainResult.badAttributeSelection
    | some only => Except.ok (filterOnlyAttributes mesh only)

/-- The two duplicate-removal stages (lines 466-486), applied in source
order when their options are set. -/
def dedupStage (w : World) (args : Args) (mesh : MeshData) : MeshData :=
  let m1 := if args.removeDuplicates then w.removeDuplicates mesh else mesh
  if args.removeDuplicatesFuzzy then w.removeDuplicatesFuzzy m1 else m1

/-- Top-level control flow of `main` after argument parsing (lines
303-547): warn when a nonempty output file accompanies an info request
(lines 329-335), load the importer (exit 1), open the input (exit 3),
print info and return when requested (lines 380-388), reject inputs
without meshes (lines 390-393), acquire the mesh, filter attributes,
remove duplicates, and run the converter chain. -/
def runMain (w : World) (args : Args) : MainResult × MainLog :=
  let warned := !args.output.isEmpty && isInfoRequested args.info
  if w.importerLoads = false then
    (MainResult.importerLoadFailed, { warnedIgnoredOutput := warned })
  else if w.openSucceeds = false then
    (MainResult.cannotOpenFile, { warnedIgnoredOutput := warned })
  else if isInfoRequested args.info then
    (MainResult.doneInfo w.printInfoError,
      { warnedIgnoredOutput := warned, printedInfo := true })
  else if w.importer.meshCount = 0 then
    (MainResult.noMeshes, { warnedIgnoredOutput := warned })
  else
    match meshStage w args with
    | Except.error r => (r, { warnedIgnoredOutput := warned })
    | Except.ok (mesh1, fl, tc, ci) =>
      match attributeStage args mesh1 with
      | Except.error r =>
        (r, { warnedIgnoredOutput := warned, sceneFlattenUsed := fl,
              transformsApplied := tc, concatInput := ci })
      | Except.ok mesh2 =>
        let mesh3 := dedupStage w args mesh2
        let chain := runChain w.registry args.converters args.converterOptions
          args.output mesh3
        (mainResultOfChain chain.2,
          { warnedIgnoredOutput := warned, sceneFlattenUsed := fl,
            transformsApplied := tc, concatInput := ci, chainEvents := chain.1 })

/-- Modelled from the spec: the implicit index list of one concatenation
input of `MeshTools::concatenate`, whose code is not part of this
repository's sources under `src/`: inputs without an index buffer are
treated as implicitly indexed `0..vertexCount-1`. -/
def effectiveIndices (m : MeshData) : List Nat :=
  match m.indices with
  | some ix => ix
  | none => List.range m.vertexCount

/-- Modelled from the spec: the index buffer produced by
`MeshTools::concatenate` starting at a given accumulated vertex offset —
the concatenation of each input's (effective) indices with the
accumulating vertex-offset added to each index. -/
def concatIndicesFrom (offset : Nat) : List MeshData → List Nat
  | [] => []
  | m :: ms =>
    (effectiveIndices m).map (fun x => x + offset) ++
      concatIndicesFrom (offset + m.vertexCount) ms

/-- Modelled from the spec: the index buffer of `MeshTools::concatenate`
over an ordered input sequence, starting at vertex offset 0. -/
def concatIndices (ms : List MeshData) : List Nat :=
  concatIndicesFrom 0 ms

/-- Position in the concatenated index buffer where input `k`'s segment
begins: the total (effective) index count of inputs `0..k-1`. -/
def indexSegmentStart (ms : List MeshData) (k : Nat) : Nat :=
  ((ms.take k).map (fun m => (effectiveIndices m).length)).sum

/-- Sum of the vertex counts of inputs `0..k-1`. -/
def vertexSumBefore (ms : List MeshData) (k : Nat) : Nat :=
  ((ms.take k).map MeshData.vertexCount).sum

/-- A small indexed mesh: three vertices, index buffer `[0, 2, 1]`. -/
def meshIdxA : MeshData :=
  { primitive := 1, indices := some [0, 2, 1], attributes := [],
    vertexData := [], vertexCount := 3 }

/-- A small non-indexed mesh with two vertices. -/
def meshIdxB : MeshData :=
  { primitive := 1, indices := none, attributes := [],
    vertexData := [], vertexCount := 2 }

/-- A concrete mesh with three distinguishable attributes. -/
def meshABC : MeshData :=
  { primitive := 4, indices := some [0, 1, 2],
    attributes :=
      [{ name := 10, format := 0, offset := 0, stride := 12 },
       { name := 11, format := 1, offset := 4, stride := 12 },
       { name := 12, format := 2, offset := 8, stride := 12 }],
    vertexData := [7, 7], vertexCount := 3 }

/-- Registry holding only the default backend, with file capability. -/
def regAnyFile : String → Option SceneConverterPlugin :=
  fun n => if n = "AnySceneConverter" then some fileOnlyPlugin else none

/-- A registry with a single requested backend `X` that only writes files. -/
def regX : String → Option SceneConverterPlugin :=
  fun n => if n = "X" then some fileOnlyPlugin else none

/-- A registry whose default backend lacks `ConvertMeshToFile`. -/
def regNoFileCap : String → Option SceneConverterPlugin :=
  fun n => if n = "AnySceneConverter" then some memOnlyPlugin else none

/-- A registry whose backend `A0` has no capabilities at all, `B0` only
in-memory conversion, and the default backend file capability. -/
def regAB : String → Option SceneConverterPlugin :=
  fun n =>
    if n = "A0" then some noCapPlugin
    else if n = "B0" then some memOnlyPlugin
    else if n = "AnySceneConverter" then some fileOnlyPlugin
    else none

/-- A one-mesh importer without a default scene. -/
def importer1 : Importer :=
  { meshCount := 1, mesh := fun _ => some meshABC,
    meshLevel := fun _ _ => some meshABC, defaultScene := none,
    scene := fun _ => none }

/-- A zero-mesh importer. -/
def importer0 : Importer :=
  { meshCount := 0, mesh := fun _ => none,
    meshLevel := fun _ _ => none, defaultScene := none,
    scene := fun _ => none }

/-- A two-mesh importer without a default scene. -/
def importer2 : Importer :=
  { meshCount := 2,
    mesh := fun i => if i = 0 then some meshIdxA else some meshIdxB,
    meshLevel := fun _ _ => some meshIdxA, defaultScene := none,
    scene := fun _ => none }

/-- A fully concrete world around `importer1`. -/
def world1 : World :=
  { importerLoads := true, openSucceeds := true, importer := importer1,
    printInfoError := false, registry := regAnyFile,
    flatten3D := fun _ => [], transform3D := fun m _ => m,
    concatenate := fun ms => ms.headD mesh0,
    removeDuplicates := fun m => m, removeDuplicatesFuzzy := fun m => m }

/-- The same world with the zero-mesh importer. -/
def world0 : World :=
  { world1 with importer := importer0 }

/-- The same world with the two-mesh importer. -/
def world2 : World :=
  { world1 with importer := importer2 }

/-- Arguments requesting `--info` together with a nonempty output file. -/
def argsInfoOut : Args :=
  { output := "out.ply", info := { info := true } }

/-- Arguments requesting a plain conversion to a nonempty output file. -/
def argsPlain : Args :=
  { output := "out.ply" }

/-- Arguments selecting the out-of-range attribute ordinal 3 of a
three-attribute mesh. -/
def argsBadAttr : Args :=
  { output := "out.ply", onlyAttributes := some [3] }

/-- Arguments requesting mesh concatenation. -/
def argsConcat : Args :=
  { output := "out.ply", concatenateMeshes := true }

theorem concatIndicesFrom_segment :
    ∀ (ms : List MeshData) (off k : Nat) (hk : k < ms.length),
      ((concatIndicesFrom off ms).drop (indexSegmentStart ms k)).take
          (effectiveIndices (ms.get ⟨k, hk⟩)).length =
        (effectiveIndices (ms.get ⟨k, hk⟩)).map
          (fun x => x + (off + vertexSumBefore ms k))
  | [], _, k, hk => absurd hk (by simp)
  | m :: ms, off, 0, _ => by
    simp only [concatIndicesFrom, indexSegmentStart, vertexSumBefore,
      List.take_zero, List.map_nil, List.sum_nil, List.drop_zero, List.get,
      Nat.add_zero]
    exact List.take_left' (by simp)
  | m :: ms, off, k + 1, hk => by
    have hk2 : k < ms.length := by
      simpa using Nat.lt_of_succ_lt_succ hk
    have hseg : indexSegmentStart (m :: ms) (k + 1) =
        ((effectiveIndices m).map (fun x => x + off)).length +
          indexSegmentStart ms k := by
      simp [indexSegmentStart]
    have hv : vertexSumBefore (m :: ms) (k + 1) =
        m.vertexCount + vertexSumBefore ms k := by
      simp [vertexSumBefore]
    simp only [concatIndicesFrom, hseg, hv, List.drop_append, List.get]
    have := concatIndicesFrom_segment ms (off + m.vertexCount) k hk2
    simpa [Nat.add_assoc] using this

/-- C7: in the concatenation of an ordered sequence of meshes, the output
index segment originating from input `k` equals input `k`'s indices (its
implicit `0..vertexCount-1` list when it has no index buffer) each offset
by the sum of the vertex counts of inputs `0..k-1`. -/
theorem claim7_concat_index_offset (ms : List MeshData) (k : Nat)
    (hk : k < ms.length) :
    ((concatIndices ms).drop (indexSegmentStart ms k)).take
        (effectiveIndices (ms.get ⟨k, hk⟩)).length =
      (effectiveIndices (ms.get ⟨k, hk⟩)).map
        (fun x => x + vertexSumBefore ms k) := by
  simpa [concatIndices] using concatIndicesFrom_segment ms 0 k hk

/-- Witness for C7 at `[meshIdxA, meshIdxB]`, segment `k = 1`: the
non-indexed second input contributes `[0, 1]` offset by the first input's
vertex count 3. -/
theorem claim7_concat_index_offset_witness :
    ((concatIndices [meshIdxA, meshIdxB]).drop
        (indexSegmentStart [meshIdxA, meshIdxB] 1)).take
        (effectiveIndices ([meshIdxA, meshIdxB].get ⟨1, by decide⟩)).length =
      (effectiveIndices ([meshIdxA, meshIdxB].get ⟨1, by decide⟩)).map
        (fun x => x + vertexSumBefore [meshIdxA, meshIdxB] 1) :=
  claim7_concat_index_offset [meshIdxA, meshIdxB] 1 (by decide)

/-- C6: the attribute filter keeps exactly the selected attribute
descriptors in the order specified, while the index buffer, vertex count
and primitive topology are unchanged. -/
theorem claim6_attribute_filter_order (mesh : MeshData) (only : List Nat)
    (hv : ∀ i ∈ only, i < mesh.attributes.length) :
    ((filterOnlyAttributes mesh only).attributes.length = only.length ∧
      ∀ k (hk : k < only.length),
        (filterOnlyAttributes mesh only).attributes[k]? =
          mesh.attributes[only.get ⟨k, hk⟩]?) ∧
    (filterOnlyAttributes mesh only).indices = mesh.indices ∧
    (filterOnlyAttributes mesh only).vertexCount = mesh.vertexCount ∧
    (filterOnlyAttributes mesh only).primitive = mesh.primitive := by
  refine ⟨⟨by simp [filterOnlyAttributes], ?_⟩, rfl, rfl, rfl⟩
  intro k hk
  have hmem : only.get ⟨k, hk⟩ ∈ only := List.get_mem only k hk
  have hlt : only.get ⟨k, hk⟩ < mesh.attributes.length := hv _ hmem
  simp only [List.get_eq_getElem] at hlt
  show (only.map (fun i => mesh.attributes.getD i default))[k]? =
    mesh.attributes[only.get ⟨k, hk⟩]?
  rw [List.getElem?_map, List.getElem?_eq_getElem (by simpa using hk)]
  simp only [List.get_eq_getElem]
  rw [List.getElem?_eq_getElem hlt]
  simp [List.getD_eq_getElem?_getD, List.getElem?_eq_getElem hlt]

/-- Witness for C6 at `meshABC` with selection `[2, 0]`: position 0 of the
output is the source's attribute 2 and the index buffer is unchanged. -/
theorem claim6_attribute_filter_order_witness :
    (filterOnlyAttributes meshABC [2, 0]).attributes[0]? =
        meshABC.attributes[2]? ∧
      (filterOnlyAttributes meshABC [2, 0]).indices = meshABC.indices ∧
      (filterOnlyAttributes meshABC [2, 0]).vertexCount = meshABC.vertexCount :=
  ⟨(claim6_attribute_filter_order meshABC [2, 0] (by decide)).1.2 0 (by decide),
   (claim6_attribute_filter_order meshABC [2, 0] (by decide)).2.1,
   (claim6_attribute_filter_order meshABC [2, 0] (by decide)).2.2.1⟩

/-- C8: a nonempty output file together with an info request is not an
error: `main` warns about the ignored output file, prints the requested
information and returns its outcome, with no conversion performed and the
output file never written (the chain trace stays empty). -/
theorem claim8_output_ignored_for_info (w : World) (args : Args)
    (hOut : args.output.isEmpty = false)
    (hI : isInfoRequested args.info = true)
    (hL : w.importerLoads = true) (hO : w.openSucceeds = true) :
    runMain w args =
      (MainResult.doneInfo w.printInfoError,
        { warnedIgnoredOutput := true, printedInfo := true }) := by
  simp [runMain, hL, hO, hI, hOut]

/-- C10: with the importer loaded and the input open, any info request
makes `main` return right after printing the information — before the
mesh-count check, any import, any transformation stage and any converter
instantiation — so a zero-mesh input still succeeds; without an info
request the same zero-mesh input fails with the reported no-meshes error
(exit code 1). -/
theorem claim10_info_before_mesh_check (w : World) (args : Args)
    (hL : w.importerLoads = true) (hO : w.openSucceeds = true)
    (hMC : w.importer.meshCount = 0) :
    (isInfoRequested args.info = true →
      (runMain w args).1 = MainResult.doneInfo w.printInfoError ∧
      (runMain w args).2.printedInfo = true ∧
      (runMain w args).2.chainEvents = [] ∧
      (runMain w args).2.concatInput = none ∧
      (w.printInfoError = false → ((runMain w args).1).exitCode = some 0)) ∧
    (isInfoRequested args.info = false →
      (runMain w args).1 = MainResult.noMeshes ∧
      ((runMain w args).1).exitCode = some 1) := by
  constructor
  · intro h
    refine ⟨by simp [runMain, hL, hO, h], by simp [runMain, hL, hO, h],
      by simp [runMain, hL, hO, h], by simp [runMain, hL, hO, h], ?_⟩
    intro he
    simp [runMain, hL, hO, h, he, MainResult.exitCode]
  · intro h
    simp [runMain, hL, hO, h, hMC, MainResult.exitCode]

/-- C5: when any requested attribute ordinal is not strictly below the
mesh's attribute count, the attribute-selection stage fails: `main`
aborts with the reported selection error (exit code 2) and the converter
chain never runs. Modelled from the spec where the range check of
`Utility::String::parseNumberSequence` is concerned, whose code is
outside the embedded sources. -/
theorem claim5_attribute_index_out_of_range (w : World) (args : Args)
    (req : List Nat) (m : MeshData) (fl : Bool) (tc : Nat)
    (ci : Option (List MeshData))
    (hL : w.importerLoads = true) (hO : w.openSucceeds = true)
    (hI : isInfoRequested args.info = false)
    (hMC : w.importer.meshCount ≠ 0)
    (hMS : meshStage w args = Except.ok (m, fl, tc, ci))
    (hreq : args.onlyAttributes = some req)
    (hbad : ∃ i ∈ req, m.attributes.length ≤ i) :
    (runMain w args).1 = MainResult.badAttributeSelection ∧
    (runMain w args).2.chainEvents = [] := by
  have hall : req.all (fun i => i < m.attributes.length) = false := by
    rw [List.all_eq_false]
    obtain ⟨i, hi, hle⟩ := hbad
    exact ⟨i, hi, by simpa using hle⟩
  have hparse : parseNumberSequence req m.attributes.length = none := by
    simp [parseNumberSequence, hall]
  constructor <;>
    simp [runMain, hL, hO, hI, hMC, hMS, attributeStage, hreq, hparse]

/-- C4: when mesh concatenation is requested and the importer reports no
default scene, `main` does not fail there: the scene-flattening branch is
skipped, no transform is applied to any mesh, every imported mesh is
passed unchanged to the concatenation, and the run continues into the
converter chain on the concatenated mesh. -/
theorem claim4_concat_without_default_scene (w : World) (args : Args)
    (ms : List MeshData)
    (hL : w.importerLoads = true) (hO : w.openSucceeds = true)
    (hI : isInfoRequested args.info = false)
    (hMC : w.importer.meshCount ≠ 0)
    (hC : args.concatenateMeshes = true)
    (hImp : importMeshesFrom w.importer 0 w.importer.meshCount = Except.ok ms)
    (hScene : w.importer.defaultScene = none)
    (hAttr : args.onlyAttributes = none) :
    (runMain w args).2.sceneFlattenUsed = false ∧
    (runMain w args).2.transformsApplied = 0 ∧
    (runMain w args).2.concatInput = some ms ∧
    (runMain w args).1 =
      mainResultOfChain
        (runChain w.registry args.converters args.converterOptions args.output
          (dedupStage w args (w.concatenate ms))).2 := by
  have hms : meshStage w args =
      Except.ok (w.concatenate ms, false, 0, some ms) := by
    simp [meshStage, hC, concatStage, hImp, hScene]
  refine ⟨?_, ?_, ?_, ?_⟩ <;>
    simp [runMain, hL, hO, hI, hMC, hms, attributeStage, hAttr]

/-- Witness for C8: concrete world and arguments satisfying every
hypothesis, evaluated. -/
theorem claim8_output_ignored_for_info_witness :
    runMain world1 argsInfoOut =
      (MainResult.doneInfo false,
        { warnedIgnoredOutput := true, printedInfo := true }) :=
  claim8_output_ignored_for_info world1 argsInfoOut rfl rfl rfl rfl

/-- Witness for C10: on a zero-mesh input, the info request succeeds with
exit code 0 while the plain conversion reports the no-meshes error. -/
theorem claim10_info_before_mesh_check_witness :
    (runMain world0 argsInfoOut).1 = MainResult.doneInfo false ∧
    ((runMain world0 argsInfoOut).1).exitCode = some 0 ∧
    (runMain world0 argsPlain).1 = MainResult.noMeshes :=
  ⟨((claim10_info_before_mesh_check world0 argsInfoOut rfl rfl rfl).1 rfl).1,
   ((claim10_info_before_mesh_check world0 argsInfoOut rfl rfl rfl).1
      rfl).2.2.2.2 rfl,
   ((claim10_info_before_mesh_check world0 argsPlain rfl rfl rfl).2 rfl).1⟩

/-- Witness for C5: the concrete out-of-range selection aborts the run
before the chain. -/
theorem claim5_attribute_index_out_of_range_witness :
    (runMain world1 argsBadAttr).1 = MainResult.badAttributeSelection ∧
    (runMain world1 argsBadAttr).2.chainEvents = [] :=
  claim5_attribute_index_out_of_range world1 argsBadAttr [3] meshABC false 0
    none rfl rfl rfl (by decide) rfl rfl (by decide)

/-- Witness for C4: two meshes, no default scene — both meshes reach the
concatenation unchanged, no transform runs, and the run proceeds into the
chain. -/
theorem claim4_concat_without_default_scene_witness :
    (runMain world2 argsConcat).2.sceneFlattenUsed = false ∧
    (runMain world2 argsConcat).2.transformsApplied = 0 ∧
    (runMain world2 argsConcat).2.concatInput = some [meshIdxA, meshIdxB] ∧
    (runMain world2 argsConcat).1 =
      mainResultOfChain
        (runChain world2.registry argsConcat.converters
          argsConcat.converterOptions argsConcat.output
          (dedupStage world2 argsConcat
            (world2.concatenate [meshIdxA, meshIdxB]))).2 :=
  claim4_concat_without_default_scene world2 argsConcat [meshIdxA, meshIdxB]
    rfl rfl rfl (by decide) rfl rfl rfl rfl

theorem mem_hopPrelude {opts : List String} {i : Nat} {name : String}
    {e : Event} (he : e ∈ hopPrelude opts i name) :
    e = Event.hopStarted i name ∨
      (i < opts.length ∧ e = Event.configured i (opts.getD i "")) := by
  simp only [hopPrelude, List.mem_cons] at he
  rcases he with he | he
  · exact Or.inl he
  · right
    split at he
    · rename_i h
      simp only [List.mem_singleton] at he
      exact ⟨h, he⟩
    · simp at he

theorem wroteFile_not_mem_hopPrelude {opts : List String} {i : Nat}
    {name : String} {j : Nat} {n : String} :
    Event.wroteFile j n ∉ hopPrelude opts i name := by
  intro h
  rcases mem_hopPrelude h with h | ⟨_, h⟩ <;> simp at h

theorem converted_not_mem_hopPrelude {opts : List String} {i : Nat}
    {name : String} {j : Nat} {n : String} :
    Event.converted j n ∉ hopPrelude opts i name := by
  intro h
  rcases mem_hopPrelude h with h | ⟨_, h⟩ <;> simp at h

theorem hopStarted_mem_hopPrelude {opts : List String} {i : Nat}
    {name : String} {j : Nat} {n : String}
    (h : Event.hopStarted j n ∈ hopPrelude opts i name) :
    j = i ∧ n = name := by
  rcases mem_hopPrelude h with h | ⟨_, h⟩
  · exact ⟨congrArg (fun e => match e with
      | Event.hopStarted k _ => k
      | _ => 0) h, congrArg (fun e => match e with
      | Event.hopStarted _ s => s
      | _ => "") h⟩
  · simp at h

theorem configured_mem_hopPrelude {opts : List String} {i : Nat}
    {name : String} {j : Nat} {v : String}
    (h : Event.configured j v ∈ hopPrelude opts i name) :
    j = i ∧ v = opts.getD i "" ∧ i < opts.length := by
  rcases mem_hopPrelude h with h | ⟨hlen, h⟩
  · simp at h
  · exact ⟨congrArg (fun e => match e with
      | Event.configured k _ => k
      | _ => 0) h, congrArg (fun e => match e with
      | Event.configured _ s => s
      | _ => "") h, hlen⟩

theorem configured_self_mem_hopPrelude {opts : List String} {i : Nat}
    {name : String} (h : i < opts.length) :
    Event.configured i (opts.getD i "") ∈ hopPrelude opts i name := by
  simp [hopPrelude, h]

theorem hopStarted_self_mem_hopPrelude {opts : List String} {i : Nat}
    {name : String} :
    Event.hopStarted i name ∈ hopPrelude opts i name := by
  simp [hopPrelude]

theorem runHops_write_features (reg : String → Option SceneConverterPlugin)
    (converterCount : Nat) (opts : List String) (output : String)
    (hops : List String) :
    ∀ (i : Nat) (mesh : MeshData) (j : Nat) (name : String),
      Event.wroteFile j name ∈
          (runHops reg converterCount opts output hops i mesh).1 →
        j + 1 ≥ converterCount ∧
          ∃ b, reg name = some b ∧ b.convertMeshToFile = true := by
  induction hops with
  | nil =>
    intro i mesh j name h
    simp [runHops] at h
  | cons hd rest ih =>
    intro i mesh j name h
    simp only [runHops] at h
    split at h
    · simp at h
    · rename_i conv heq
      split at h
      · rename_i hterm
        dsimp only at h
        rw [List.mem_append] at h
        rcases h with h | h
        · exact absurd h wroteFile_not_mem_hopPrelude
        · simp only [List.mem_singleton, Event.wroteFile.injEq] at h
          obtain ⟨rfl, rfl⟩ := h
          exact ⟨hterm.1, conv, heq, hterm.2⟩
      · rename_i hnterm
        split at h
        · -- i < converterCount
          split at h
          · -- convertMesh = true
            split at h
            · -- convert = some next
              rename_i next hconv
              dsimp only at h
              rw [List.mem_append, List.mem_append] at h
              rcases h with (h | h) | h
              · exact absurd h wroteFile_not_mem_hopPrelude
              · simp at h
              · exact ih (i + 1) next j name h
            · -- convert = none
              dsimp only at h
              rw [List.mem_append] at h
              rcases h with h | h
              · exact absurd h wroteFile_not_mem_hopPrelude
              · simp at h
          · -- convertMesh = false
            dsimp only at h
            exact absurd h wroteFile_not_mem_hopPrelude
        · -- assertion branch
          dsimp only at h
          exact absurd h wroteFile_not_mem_hopPrelude

theorem hopPrelude_writes_false (opts : List String) (i : Nat) (name : String) :
    ∀ e ∈ hopPrelude opts i name, e.isFileWrite = false := by
  intro e he
  rcases mem_hopPrelude he with rfl | ⟨_, rfl⟩ <;> rfl

theorem noEventAfterWrite_of_no_write {l : List Event}
    (h : ∀ e ∈ l, e.isFileWrite = false) : noEventAfterWrite l = true := by
  induction l with
  | nil => rfl
  | cons e t ih =>
    rw [noEventAfterWrite, h e (List.mem_cons_self e t)]
    simp only [Bool.false_eq_true, if_false]
    exact ih fun x hx => h x (List.mem_cons_of_mem e hx)

theorem noEventAfterWrite_append {l1 l2 : List Event}
    (h : ∀ e ∈ l1, e.isFileWrite = false) :
    noEventAfterWrite (l1 ++ l2) = noEventAfterWrite l2 := by
  induction l1 with
  | nil => rfl
  | cons e t ih =>
    rw [List.cons_append, noEventAfterWrite, h e (List.mem_cons_self e t)]
    simp only [Bool.false_eq_true, if_false]
    exact ih fun x hx => h x (List.mem_cons_of_mem e hx)

theorem runHops_noEventAfterWrite (reg : String → Option SceneConverterPlugin)
    (converterCount : Nat) (opts : List String) (output : String)
    (hops : List String) :
    ∀ (i : Nat) (mesh : MeshData),
      noEventAfterWrite (runHops reg converterCount opts output hops i mesh).1 =
        true := by
  induction hops with
  | nil =>
    intro i mesh
    simp [runHops, noEventAfterWrite]
  | cons hd rest ih =>
    intro i mesh
    simp only [runHops]
    split
    · exact noEventAfterWrite_of_no_write (by intro e he; simp at he; subst he; rfl)
    · rename_i conv heq
      split
      · dsimp only
        rw [noEventAfterWrite_append (hopPrelude_writes_false _ _ _)]
        rfl
      · split
        · split
          · split
            · rename_i next hconv
              dsimp only
              have hpre : ∀ e ∈ hopPrelude opts i hd ++ [Event.converted i hd],
                  e.isFileWrite = false := by
                intro e he
                rcases List.mem_append.1 he with he | he
                · exact hopPrelude_writes_false _ _ _ e he
                · simp only [List.mem_singleton] at he
                  subst he
                  rfl
              rw [noEventAfterWrite_append hpre]
              exact ih (i + 1) next
            · dsimp only
              rw [noEventAfterWrite_append (hopPrelude_writes_false _ _ _)]
              rfl
          · dsimp only
            exact noEventAfterWrite_of_no_write (hopPrelude_writes_false _ _ _)
        · dsimp only
          exact noEventAfterWrite_of_no_write (hopPrelude_writes_false _ _ _)

theorem runHops_write_of_terminal (reg : String → Option SceneConverterPlugin)
    (converterCount : Nat) (opts : List String) (output : String)
    (hops : List String) :
    ∀ (i : Nat) (mesh : MeshData) (j : Nat) (name : String)
      (b : SceneConverterPlugin),
      Event.hopStarted j name ∈
          (runHops reg converterCount opts output hops i mesh).1 →
      reg name = some b → j + 1 ≥ converterCount → b.convertMeshToFile = true →
      Event.wroteFile j name ∈
        (runHops reg converterCount opts output hops i mesh).1 := by
  induction hops with
  | nil =>
    intro i mesh j name b h
    simp [runHops] at h
  | cons hd rest ih =>
    intro i mesh j name b h hreg hlate hcap
    cases heq : reg hd with
    | none =>
      simp only [runHops, heq] at h
      simp only [List.mem_singleton, Event.hopStarted.injEq] at h
      obtain ⟨rfl, rfl⟩ := h
      rw [heq] at hreg
      exact Option.noConfusion hreg
    | some conv =>
      simp only [runHops, heq] at h ⊢
      by_cases hterm : i + 1 ≥ converterCount ∧ conv.convertMeshToFile = true
      · rw [if_pos hterm] at h ⊢
        dsimp only at h ⊢
        rw [List.mem_append] at h ⊢
        rcases h with h | h
        · obtain ⟨rfl, rfl⟩ := hopStarted_mem_hopPrelude h
          right
          simp
        · simp at h
      · rw [if_neg hterm] at h ⊢
        by_cases hlt : i < converterCount
        · rw [if_pos hlt] at h ⊢
          by_cases hcm : conv.convertMesh = true
          · rw [if_pos hcm] at h ⊢
            cases hc : conv.convert mesh with
            | some next =>
              rw [hc] at h
              dsimp only at h
              rw [List.mem_append] at h ⊢
              rcases h with h | h
              · rw [List.mem_append] at h
                rcases h with h | h
                · obtain ⟨rfl, rfl⟩ := hopStarted_mem_hopPrelude h
                  rw [heq] at hreg
                  have hbc : conv = b := by
                    injection hreg
                  subst hbc
                  exact absurd ⟨hlate, hcap⟩ hterm
                · simp at h
              · right
                exact ih (i + 1) next j name b h hreg hlate hcap
            | none =>
              rw [hc] at h
              dsimp only at h
              rw [List.mem_append] at h
              rcases h with h | h
              · obtain ⟨rfl, rfl⟩ := hopStarted_mem_hopPrelude h
                rw [heq] at hreg
                have hbc : conv = b := by
                  injection hreg
                subst hbc
                exact absurd ⟨hlate, hcap⟩ hterm
              · simp at h
          · rw [if_neg hcm] at h
            dsimp only at h
            obtain ⟨rfl, rfl⟩ := hopStarted_mem_hopPrelude h
            rw [heq] at hreg
            have hbc : conv = b := by
              injection hreg
            subst hbc
            exact absurd ⟨hlate, hcap⟩ hterm
        · rw [if_neg hlt] at h
          dsimp only at h
          obtain ⟨rfl, rfl⟩ := hopStarted_mem_hopPrelude h
          rw [heq] at hreg
          have hbc : conv = b := by
            injection hreg
          subst hbc
          exact absurd ⟨hlate, hcap⟩ hterm

theorem runHops_convert_features (reg : String → Option SceneConverterPlugin)
    (converterCount : Nat) (opts : List String) (output : String)
    (hops : List String) :
    ∀ (i : Nat) (mesh : MeshData) (j : Nat) (name : String),
      Event.converted j name ∈
          (runHops reg converterCount opts output hops i mesh).1 →
        ∃ b, reg name = some b ∧ b.convertMesh = true := by
  induction hops with
  | nil =>
    intro i mesh j name h
    simp [runHops] at h
  | cons hd rest ih =>
    intro i mesh j name h
    simp only [runHops] at h
    split at h
    · simp at h
    · rename_i conv heq
      split at h
      · dsimp only at h
        rw [List.mem_append] at h
        rcases h with h | h
        · exact absurd h converted_not_mem_hopPrelude
        · simp at h
      · split at h
        · split at h
          · rename_i hcm
            split at h
            · rename_i next hconv
              dsimp only at h
              rw [List.mem_append, List.mem_append] at h
              rcases h with (h | h) | h
              · exact absurd h converted_not_mem_hopPrelude
              · simp only [List.mem_singleton, Event.converted.injEq] at h
                obtain ⟨rfl, rfl⟩ := h
                exact ⟨conv, heq, hcm⟩
              · exact ih (i + 1) next j name h
            · dsimp only at h
              rw [List.mem_append] at h
              rcases h with h | h
              · exact absurd h converted_not_mem_hopPrelude
              · rename_i hcm2
                simp only [List.mem_singleton, Event.converted.injEq] at h
                obtain ⟨rfl, rfl⟩ := h
                exact ⟨conv, heq, hcm⟩
          · dsimp only at h
            exact absurd h converted_not_mem_hopPrelude
        · dsimp only at h
          exact absurd h converted_not_mem_hopPrelude

theorem runHops_configured_inv (reg : String → Option SceneConverterPlugin)
    (converterCount : Nat) (opts : List String) (output : String)
    (hops : List String) :
    ∀ (i : Nat) (mesh : MeshData) (j : Nat) (v : String),
      Event.configured j v ∈
          (runHops reg converterCount opts output hops i mesh).1 →
        j < opts.length ∧ v = opts.getD j "" ∧
          ∃ name b,
            Event.hopStarted j name ∈
                (runHops reg converterCount opts output hops i mesh).1 ∧
              reg name = some b := by
  induction hops with
  | nil =>
    intro i mesh j v h
    simp [runHops] at h
  | cons hd rest ih =>
    intro i mesh j v h
    simp only [runHops] at h ⊢
    split at h
    · simp at h
    · rename_i conv heq
      split at h
      · rename_i hterm
        rw [if_pos hterm]
        dsimp only at h ⊢
        rw [List.mem_append] at h
        rcases h with h | h
        · obtain ⟨rfl, rfl, hlen⟩ := configured_mem_hopPrelude h
          exact ⟨hlen, rfl, hd, conv,
            List.mem_append.2 (Or.inl hopStarted_self_mem_hopPrelude), heq⟩
        · simp at h
      · rename_i hterm
        rw [if_neg hterm]
        split at h
        · rename_i hlt
          rw [if_pos hlt]
          split at h
          · rename_i hcm
            rw [if_pos hcm]
            split at h
            · rename_i next hc
              dsimp only at h ⊢
              rw [List.mem_append, List.mem_append] at h
              rcases h with (h | h) | h
              · obtain ⟨rfl, rfl, hlen⟩ := configured_mem_hopPrelude h
                refine ⟨hlen, rfl, hd, conv, ?_, heq⟩
                rw [List.mem_append, List.mem_append]
                exact Or.inl (Or.inl hopStarted_self_mem_hopPrelude)
              · simp at h
              · obtain ⟨hlen, hval, name, b, hmem, hb⟩ := ih (i + 1) next j v h
                refine ⟨hlen, hval, name, b, ?_, hb⟩
                rw [List.mem_append, List.mem_append]
                exact Or.inr hmem
            · rename_i hc
              dsimp only at h ⊢
              rw [List.mem_append] at h
              rcases h with h | h
              · obtain ⟨rfl, rfl, hlen⟩ := configured_mem_hopPrelude h
                exact ⟨hlen, rfl, hd, conv,
                  List.mem_append.2 (Or.inl hopStarted_self_mem_hopPrelude), heq⟩
              · simp at h
          · rename_i hcm
            rw [if_neg hcm]
            dsimp only at h ⊢
            obtain ⟨rfl, rfl, hlen⟩ := configured_mem_hopPrelude h
            exact ⟨hlen, rfl, hd, conv, hopStarted_self_mem_hopPrelude, heq⟩
        · rename_i hlt
          rw [if_neg hlt]
          dsimp only at h ⊢
          obtain ⟨rfl, rfl, hlen⟩ := configured_mem_hopPrelude h
          exact ⟨hlen, rfl, hd, conv, hopStarted_self_mem_hopPrelude, heq⟩

theorem runHops_configured_of_hopStarted
    (reg : String → Option SceneConverterPlugin) (converterCount : Nat)
    (opts : List String) (output : String) (hops : List String) :
    ∀ (i : Nat) (mesh : MeshData) (j : Nat) (name : String)
      (b : SceneConverterPlugin),
      Event.hopStarted j name ∈
          (runHops reg converterCount opts output hops i mesh).1 →
      reg name = some b → j < opts.length →
      Event.configured j (opts.getD j "") ∈
        (runHops reg converterCount opts output hops i mesh).1 := by
  induction hops with
  | nil =>
    intro i mesh j name b h
    simp [runHops] at h
  | cons hd rest ih =>
    intro i mesh j name b h hreg hlen
    cases heq : reg hd with
    | none =>
      simp only [runHops, heq] at h
      simp only [List.mem_singleton, Event.hopStarted.injEq] at h
      obtain ⟨rfl, rfl⟩ := h
      rw [heq] at hreg
      exact Option.noConfusion hreg
    | some conv =>
      simp only [runHops, heq] at h ⊢
      by_cases hterm : i + 1 ≥ converterCount ∧ conv.convertMeshToFile = true
      · rw [if_pos hterm] at h ⊢
        dsimp only at h ⊢
        rw [List.mem_append] at h ⊢
        rcases h with h | h
        · obtain ⟨rfl, rfl⟩ := hopStarted_mem_hopPrelude h
          exact Or.inl (configured_self_mem_hopPrelude hlen)
        · simp at h
      · rw [if_neg hterm] at h ⊢
        by_cases hlt : i < converterCount
        · rw [if_pos hlt] at h ⊢
          by_cases hcm : conv.convertMesh = true
          · rw [if_pos hcm] at h ⊢
            cases hc : conv.convert mesh with
            | some next =>
              rw [hc] at h
              dsimp only at h
              rw [List.mem_append, List.mem_append] at h ⊢
              rcases h with (h | h) | h
              · obtain ⟨rfl, rfl⟩ := hopStarted_mem_hopPrelude h
                exact Or.inl (Or.inl (configured_self_mem_hopPrelude hlen))
              · simp at h
              · exact Or.inr (ih (i + 1) next j name b h hreg hlen)
            | none =>
              rw [hc] at h
              dsimp only at h
              rw [List.mem_append] at h ⊢
              rcases h with h | h
              · obtain ⟨rfl, rfl⟩ := hopStarted_mem_hopPrelude h
                exact Or.inl (configured_self_mem_hopPrelude hlen)
              · simp at h
          · rw [if_neg hcm] at h ⊢
            dsimp only at h ⊢
            obtain ⟨rfl, rfl⟩ := hopStarted_mem_hopPrelude h
            exact configured_self_mem_hopPrelude hlen
        · rw [if_neg hlt] at h ⊢
          dsimp only at h ⊢
          obtain ⟨rfl, rfl⟩ := hopStarted_mem_hopPrelude h
          exact configured_self_mem_hopPrelude hlen

theorem runHops_configured_index_lt
    (reg : String → Option SceneConverterPlugin) (converterCount : Nat)
    (opts : List String) (output : String) (hops : List String) :
    ∀ (i : Nat) (mesh : MeshData) (j : Nat) (v : String),
      Event.configured j v ∈
          (runHops reg converterCount opts output hops i mesh).1 →
        j < i + hops.length := by
  induction hops with
  | nil =>
    intro i mesh j v h
    simp [runHops] at h
  | cons hd rest ih =>
    intro i mesh j v h
    simp only [runHops] at h
    split at h
    · simp at h
    · rename_i conv heq
      split at h
      · dsimp only at h
        rw [List.mem_append] at h
        rcases h with h | h
        · obtain ⟨rfl, _, _⟩ := configured_mem_hopPrelude h
          simp
        · simp at h
      · split at h
        · split at h
          · split at h
            · rename_i next hc
              dsimp only at h
              rw [List.mem_append, List.mem_append] at h
              rcases h with (h | h) | h
              · obtain ⟨rfl, _, _⟩ := configured_mem_hopPrelude h
                simp
              · simp at h
              · have := ih (i + 1) next j v h
                simp only [List.length_cons]
                omega
            · dsimp only at h
              rw [List.mem_append] at h
              rcases h with h | h
              · obtain ⟨rfl, _, _⟩ := configured_mem_hopPrelude h
                simp
              · simp at h
          · dsimp only at h
            obtain ⟨rfl, _, _⟩ := configured_mem_hopPrelude h
            simp
        · dsimp only at h
          obtain ⟨rfl, _, _⟩ := configured_mem_hopPrelude h
          simp

/-- Counterexample to C1 as stated: with one requested backend `X`
declaring `ConvertMeshToFile`, the chain invokes the convert-to-file
operation at hop index 0, which is strictly below `N = 1` — the file write
is not reserved to the implicit default backend's hop `i == N`. -/
theorem claim1_counterexample :
    Event.wroteFile 0 "X" ∈ (runChain regX ["X"] [] "out.ply" mesh0).1 ∧
      0 < (["X"] : List String).length := by
  decide

/-- C1 (amended): a hop invokes the convert-to-file operation iff its
index `i` satisfies `i + 1 ≥ N` — the hop of the last requested converter
or of the implicit default backend — and that hop's backend declares
`ConvertMeshToFile`; and once a file write is invoked, nothing further
executes in the chain. -/
theorem claim1_terminal_write_amended
    (reg : String → Option SceneConverterPlugin)
    (converters opts : List String) (output : String) (mesh : MeshData) :
    (∀ j name,
        Event.wroteFile j name ∈ (runChain reg converters opts output mesh).1 →
          j + 1 ≥ converters.length ∧
            ∃ b, reg name = some b ∧ b.convertMeshToFile = true) ∧
    (∀ j name b,
        Event.hopStarted j name ∈ (runChain reg converters opts output mesh).1 →
          reg name = some b → j + 1 ≥ converters.length →
          b.convertMeshToFile = true →
          Event.wroteFile j name ∈ (runChain reg converters opts output mesh).1) ∧
    noEventAfterWrite (runChain reg converters opts output mesh).1 = true := by
  refine ⟨?_, ?_, ?_⟩
  · intro j name h
    exact runHops_write_features reg converters.length opts output _ 0 mesh j
      name h
  · intro j name b h hb hlate hcap
    exact runHops_write_of_terminal reg converters.length opts output _ 0 mesh
      j name b h hb hlate hcap
  · exact runHops_noEventAfterWrite reg converters.length opts output _ 0 mesh

/-- Witness for C1 (amended), at the one-backend chain `[X]`: the file
write at hop 0 satisfies `0 + 1 ≥ 1` with a file-capable backend, and the
trace has nothing after its write. -/
theorem claim1_terminal_write_amended_witness :
    (0 + 1 ≥ (["X"] : List String).length ∧
      ∃ b, regX "X" = some b ∧ b.convertMeshToFile = true) ∧
    noEventAfterWrite (runChain regX ["X"] [] "out.ply" mesh0).1 = true :=
  ⟨(claim1_terminal_write_amended regX ["X"] [] "out.ply" mesh0).1 0 "X"
      (by decide),
   (claim1_terminal_write_amended regX ["X"] [] "out.ply" mesh0).2.2⟩

/-- Counterexample to C2 as stated: when the final hop's backend (the
default `AnySceneConverter`) lacks `ConvertMeshToFile`, the chain ends in
the internal assertion abort — not in the reported capability-mismatch
error path, and with no exit code of its own. -/
theorem claim2_counterexample :
    (runChain regNoFileCap [] [] "out.ply" mesh0).2 =
        ChainResult.assertFailed ∧
      ((runChain regNoFileCap [] [] "out.ply" mesh0).2).isCapabilityMismatch =
        false ∧
      ((runChain regNoFileCap [] [] "out.ply" mesh0).2).exitCode = none := by
  decide

/-- C2 (amended): if the final hop `i == N` is reached and its backend
does not declare `ConvertMeshToFile`, the loop falls into its non-terminal
branch and `CORRADE_INTERNAL_ASSERT(i < converterCount)` fails: the run
terminates by the assertion abort, not by the reported capability-mismatch
error path. -/
theorem claim2_final_hop_assert_amended
    (reg : String → Option SceneConverterPlugin) (converterCount : Nat)
    (opts : List String) (output : String) (name : String) (mesh : MeshData)
    (b : SceneConverterPlugin) (hreg : reg name = some b)
    (hcap : b.convertMeshToFile = false) :
    (runHops reg converterCount opts output [name] converterCount mesh).2 =
        ChainResult.assertFailed ∧
      ((runHops reg converterCount opts output [name] converterCount
          mesh).2).isCapabilityMismatch = false := by
  constructor <;> simp [runHops, hreg, hcap, ChainResult.isCapabilityMismatch]

/-- Witness for C2 (amended) at the concrete default-backend registry
lacking file capability. -/
theorem claim2_final_hop_assert_amended_witness :
    (runHops regNoFileCap 0 [] "out.ply" ["AnySceneConverter"] 0 mesh0).2 =
        ChainResult.assertFailed ∧
      ((runHops regNoFileCap 0 [] "out.ply" ["AnySceneConverter"] 0
          mesh0).2).isCapabilityMismatch = false :=
  claim2_final_hop_assert_amended regNoFileCap 0 [] "out.ply"
    "AnySceneConverter" mesh0 memOnlyPlugin rfl rfl

/-- C3: for a requested chain `[A, B]` where backend `A` does not declare
`ConvertMesh`, the run fails with the reported capability-mismatch error
(exit code 6) before any conversion operation is invoked on any backend;
and in every run, every in-memory convert invocation is on a backend that
declares `ConvertMesh` — a mid-chain backend lacking it is never invoked. -/
theorem claim3_capability_mismatch_before_conversion
    (reg : String → Option SceneConverterPlugin) (a bName : String)
    (opts : List String) (output : String) (mesh : MeshData)
    (A : SceneConverterPlugin) (hA : reg a = some A)
    (hcm : A.convertMesh = false) :
    ((runChain reg [a, bName] opts output mesh).2 =
        ChainResult.capabilityMismatch a ∧
      ((runChain reg [a, bName] opts output mesh).2).exitCode = some 6 ∧
      ∀ e ∈ (runChain reg [a, bName] opts output mesh).1,
        e.isConvertCall = false ∧ e.isFileWrite = false) ∧
    (∀ (converters : List String) (m : MeshData) (j : Nat) (name : String),
      Event.converted j name ∈ (runChain reg converters opts output m).1 →
        ∃ b, reg name = some b ∧ b.convertMesh = true) := by
  have hrun : runChain reg [a, bName] opts output mesh =
      (hopPrelude opts 0 a, ChainResult.capabilityMismatch a) := by
    simp [runChain, runHops, hA, hcm]
  refine ⟨⟨?_, ?_, ?_⟩, ?_⟩
  · rw [hrun]
  · rw [hrun]
    rfl
  · rw [hrun]
    intro e he
    rcases mem_hopPrelude he with rfl | ⟨_, rfl⟩ <;> exact ⟨rfl, rfl⟩
  · intro converters m j name h
    exact runHops_convert_features reg converters.length opts output _ 0 m j
      name h

/-- Witness for C3 at the concrete chain `[A0, B0]` with `A0` lacking
`ConvertMesh`: the reported capability-mismatch result, exit code 6, and a
trace free of conversion and write calls. -/
theorem claim3_capability_mismatch_before_conversion_witness :
    (runChain regAB ["A0", "B0"] [] "out.ply" mesh0).2 =
        ChainResult.capabilityMismatch "A0" ∧
      ((runChain regAB ["A0", "B0"] [] "out.ply" mesh0).2).exitCode =
        some 6 ∧
      ∀ e ∈ (runChain regAB ["A0", "B0"] [] "out.ply" mesh0).1,
        e.isConvertCall = false ∧ e.isFileWrite = false :=
  (claim3_capability_mismatch_before_conversion regAB "A0" "B0" [] "out.ply"
    mesh0 noCapPlugin rfl rfl).1

/-- C9: converter-options values are paired to hops by position — a
`configured` event for hop `j` happens exactly when hop `j` starts with a
backend that instantiates and `j` is below the number of options values,
and it always applies the `j`-th value; since hop indices never exceed `N`
(the implicit default hop), any options values beyond position `N` are
silently ignored. -/
theorem claim9_options_paired_by_position
    (reg : String → Option SceneConverterPlugin)
    (converters opts : List String) (output : String) (mesh : MeshData) :
    (∀ j v,
        Event.configured j v ∈ (runChain reg converters opts output mesh).1 →
          j < opts.length ∧ v = opts.getD j "" ∧
            ∃ name b,
              Event.hopStarted j name ∈
                  (runChain reg converters opts output mesh).1 ∧
                reg name = some b) ∧
    (∀ j name b,
        Event.hopStarted j name ∈ (runChain reg converters opts output mesh).1 →
          reg name = some b → j < opts.length →
          Event.configured j (opts.getD j "") ∈
            (runChain reg converters opts output mesh).1) ∧
    (∀ j v,
        Event.configured j v ∈ (runChain reg converters opts output mesh).1 →
          j ≤ converters.length) := by
  refine ⟨?_, ?_, ?_⟩
  · intro j v h
    exact runHops_configured_inv reg converters.length opts output _ 0 mesh j
      v h
  · intro j name b h hb hlen
    exact runHops_configured_of_hopStarted reg converters.length opts output _
      0 mesh j name b h hb hlen
  · intro j v h
    have := runHops_configured_index_lt reg converters.length opts output _ 0
      mesh j v h
    simp only [List.length_append, List.length_cons, List.length_nil,
      Nat.zero_add] at this
    omega

/-- Witness for C9 at the chain `[X]` with two options values: hop 0
starts, instantiates, and `0 < 2`, so the 0-th value is applied there. -/
theorem claim9_options_paired_by_position_witness :
    Event.configured 0 (["o0", "o1"].getD 0 "") ∈
      (runChain regX ["X"] ["o0", "o1"] "out.ply" mesh0).1 :=
  (claim9_options_paired_by_position regX ["X"] ["o0", "o1"] "out.ply"
    mesh0).2.1 0 "X" fileOnlyPlugin (by decide) rfl (by decide)

end SceneConv
